import Mathlib

/-!
Verification of the review extraction / filtering / aggregation core of
the `yelp-reviews-scraper` repository.

Shallow embedding of the Python sources:
  * `src/extractors/utils_filters.py` — `ReviewFilters`, `apply_filters`,
    `_passes_rating_filter`, `_passes_date_filter`, `_ensure_datetime`.
  * `src/extractors/yelp_parser.py` — `YelpPageParser.parse_business_page`,
    `_parse_reviews`, `_parse_single_review`, `_extract_reviewer_rating`,
    `_extract_review_media_urls`, `_build_rating_histogram`.

Modelling decisions (externals abstracted, repository logic kept exact):
  * HTML fetching (`requests`) and tree parsing (`BeautifulSoup`) are
    external collaborators.  A parsed document is therefore represented by
    the data the extraction strategies read from it: the per-document
    `BusinessInfo`, and for each located review container the inputs of
    the per-container extraction strategies (`Container` below).
  * `dateutil.parser.parse` is an external library.  The outcome of
    parsing a raw date text is abstracted as `RawDate`: the text is
    absent, parses to a comparable point in time (modelled as `Int`),
    or raises.  Likewise the `review_date` field of an already-built
    review dictionary is a `DateField` as seen by `_ensure_datetime`.
  * Python `float` formatting `f"{x:.1f}"` for `average_rating` is float
    rendering; the rating value is modelled as `Rat` and the rendering as
    an explicit function argument `fmt` of the pipeline.
  * Python integers are modelled as `Int`; a review dict value that is
    not an `int` (the `isinstance(rating, int)` check) is `none`.
-/

/-- Outcome of `review.get("review_date")` as `_passes_date_filter` sees it:
absent (or falsy, e.g. the empty string), a string `parse_review_date`
raises on, or a string that normalizes to the point in time `t`. -/
inductive DateField where
  | missing : DateField
  | unparseable : DateField
  | parsed : Int → DateField
deriving DecidableEq, Repr

/-- Outcome of the raw review-date text of one container, as
`_parse_single_review` sees it before calling `parse_review_date`:
no raw date text found, text that parses to time `t`, or text on which
`dateutil` (hence `parse_review_date`) raises. -/
inductive RawDate where
  | missing : RawDate
  | parseable : Int → RawDate
  | unparseable : RawDate
deriving DecidableEq, Repr

/-- `ReviewFilters` dataclass of `utils_filters.py`. -/
structure ReviewFilters where
  min_rating : Option Int := none
  max_rating : Option Int := none
  from_date : Option Int := none
deriving DecidableEq, Repr

/-- The scraper-settings section read by `parse_business_page` and
`ReviewFilters.from_settings`.  The tolerant `int(...)` coercions and the
`from_date` string parse of `from_settings` (malformed entries dropped to
`None` with a warning) are abstracted: fields hold the already-validated
optional values. -/
structure ScraperSettings where
  max_reviews : Nat := 200
  min_rating : Option Int := none
  max_rating : Option Int := none
  from_date : Option Int := none
deriving DecidableEq, Repr

/-- `ReviewFilters.from_settings`: reads the three filter entries of the
settings section. -/
def ReviewFilters.from_settings (s : ScraperSettings) : ReviewFilters :=
  { min_rating := s.min_rating, max_rating := s.max_rating,
    from_date := s.from_date }

/-- One review dictionary as produced by `_parse_single_review`: the
fields read by the filters, the histogram and the media-URL claim
(`latest_reviewer_rating`, `review_date`, `review_media_urls`). -/
structure Review where
  rating : Option Int
  date : DateField
  media_urls : List String := []
deriving DecidableEq, Repr

/-- `BusinessInfo` dataclass of `yelp_parser.py` (`average_rating` is a
Python float, modelled as `Rat`). -/
structure BusinessInfo where
  business_url : String
  business_name : Option String := none
  average_rating : Option Rat := none
  total_reviews_text : Option String := none
  price_range : Option String := none
  business_address : Option String := none
  contact_number : Option String := none
deriving DecidableEq, Repr

/-- `_passes_rating_filter` of `utils_filters.py`. -/
def passes_rating_filter (review : Review) (filters : ReviewFilters) : Bool :=
  match review.rating with
  | none =>
      -- unknown rating: keep only when no explicit bound exists
      filters.min_rating.isNone && filters.max_rating.isNone
  | some rating =>
      (match filters.min_rating with
       | none => true
       | some m => decide (m ≤ rating)) &&
      (match filters.max_rating with
       | none => true
       | some m => decide (rating ≤ m))

/-- `_passes_date_filter` of `utils_filters.py` (with `_ensure_datetime`
inlined on the `DateField` abstraction: a parsed value compares, an
unparseable one raises and the review is dropped). -/
def passes_date_filter (review : Review) (filters : ReviewFilters) : Bool :=
  match filters.from_date with
  | none => true
  | some fromDate =>
      match review.date with
      | DateField.missing => false
      | DateField.unparseable => false
      | DateField.parsed t => decide (fromDate ≤ t)

/-- `apply_filters` of `utils_filters.py`: the loop keeps exactly the
reviews passing both predicates, in order. -/
def apply_filters (reviews : List Review) (filters : ReviewFilters) :
    List Review :=
  reviews.filter
    (fun r => passes_rating_filter r filters && passes_date_filter r filters)

/-- One `counter[rating] += 1` step of `_build_rating_histogram`. -/
def counterAdd (c : Int → Nat) (k : Int) : Int → Nat :=
  fun s => if s = k then c s + 1 else c s

/-- The `Counter` accumulated by `_build_rating_histogram`'s loop: each
review with an integer rating in 1..5 bumps its bucket, all other reviews
are skipped.  (The loop runs left to right; counts are order-independent,
so head recursion computes the same counter.) -/
def counterOf : List Review → (Int → Nat)
  | [] => fun _ => 0
  | r :: rest =>
      match r.rating with
      | some k =>
          if 1 ≤ k && k ≤ 5 then counterAdd (counterOf rest) k
          else counterOf rest
      | none => counterOf rest

/-- The fixed five-key dict `{f"{stars}stars": ... for stars in range(1, 6)}`
returned by `_build_rating_histogram`. -/
structure RatingHistogram where
  stars1 : Nat
  stars2 : Nat
  stars3 : Nat
  stars4 : Nat
  stars5 : Nat
deriving DecidableEq, Repr

/-- `_build_rating_histogram` of `yelp_parser.py`. -/
def build_rating_histogram (reviews : List Review) : RatingHistogram :=
  let c := counterOf reviews
  { stars1 := c 1, stars2 := c 2, stars3 := c 3, stars4 := c 4,
    stars5 := c 5 }

/-- Sum of the five bucket counts of a histogram. -/
def RatingHistogram.bucketSum (h : RatingHistogram) : Nat :=
  h.stars1 + h.stars2 + h.stars3 + h.stars4 + h.stars5

/-- A review has a known integer rating in 1..5 (`isinstance(rating, int)
and 1 <= rating <= 5`). -/
def knownInRange (r : Review) : Bool :=
  match r.rating with
  | some k => 1 ≤ k && k ≤ 5
  | none => false

/-- Value of one decimal digit character. -/
def digitVal (c : Char) : Nat := c.toNat - 48

/-- `int(...)` of the maximal leading digit run, continuing from `acc`. -/
def takeDigits : List Char → Nat → Nat
  | [], acc => acc
  | c :: rest, acc =>
      if c.isDigit then takeDigits rest (acc * 10 + digitVal c) else acc

/-- `re.search(r"(\d+)", s)` followed by `int(...)`: the first maximal run
of decimal digits in `s`, as a number; `none` when `s` has no digit. -/
def findFirstNat : List Char → Option Nat
  | [] => none
  | c :: rest =>
      if c.isDigit then some (takeDigits rest (digitVal c))
      else findFirstNat rest

/-- `_extract_reviewer_rating` of `yelp_parser.py`: `label` is the
`aria-label` of the first element matching the star-rating pattern
(`none` when no such element exists); the first integer in the label is
the rating.  (`int` over a digit run cannot raise, so the `except` branch
is dead.) -/
def extract_reviewer_rating (label : Option String) : Option Int :=
  match label with
  | none => none
  | some s => (findFirstNat s.data).map Int.ofNat

/-- One media-relevant element of a review container, in document order:
an `<img>` (its `src`, absent when the attribute is missing) or a
`<source>` child of a `<video>` (its `src`). -/
inductive MediaItem where
  | img : Option String → MediaItem
  | vsource : Option String → MediaItem
deriving DecidableEq, Repr

/-- `needle` occurs as a contiguous substring of `hay` (Python `in`). -/
def hasSubstr (needle : List Char) : List Char → Bool
  | [] => needle.isPrefixOf []
  | c :: rest => needle.isPrefixOf (c :: rest) || hasSubstr needle rest

/-- `"yelp" in src`. -/
def containsYelp (src : String) : Bool :=
  hasSubstr "yelp".data src.data

/-- First loop body of `_extract_review_media_urls`: append an image
source if it contains the vendor marker and is not already collected. -/
def addImg (urls : List String) (item : MediaItem) : List String :=
  match item with
  | MediaItem.img (some src) =>
      if containsYelp src && !(urls.contains src) then urls ++ [src]
      else urls
  | _ => urls

/-- Second loop body of `_extract_review_media_urls`: append a video
source if not already collected. -/
def addSrc (urls : List String) (item : MediaItem) : List String :=
  match item with
  | MediaItem.vsource (some src) =>
      if !(urls.contains src) then urls ++ [src] else urls
  | _ => urls

/-- `_extract_review_media_urls` of `yelp_parser.py`: one pass over all
images of the container (document order), then one pass over all video
sources (document order), each appending unseen URLs. -/
def extract_review_media_urls (items : List MediaItem) : List String :=
  items.foldl addSrc (items.foldl addImg [])

/-- All extracted media URLs of a container in the container's document
order: qualifying image sources and video sources interleaved as their
elements appear in the document. -/
def docOrderUrls (items : List MediaItem) : List String :=
  items.filterMap fun item =>
    match item with
    | MediaItem.img (some src) => if containsYelp src then some src else none
    | MediaItem.vsource (some src) => some src
    | _ => none

/-- First-occurrence deduplication, continuing from `acc`. -/
def dedupInto (acc : List String) : List String → List String
  | [] => acc
  | s :: rest =>
      if acc.contains s then dedupInto acc rest
      else dedupInto (acc ++ [s]) rest

/-- One review container, represented by the inputs of the per-container
extraction strategies a claim reads: the star-rating `aria-label` found
in the container (if any), the raw review-date text outcome, the raw
business-response-date text outcome (`none` when no response block is
found or it has no date text), and the media elements in document order. -/
structure Container where
  starLabel : Option String := none
  rawDate : RawDate := RawDate.missing
  respDate : Option RawDate := none
  media : List MediaItem := []
deriving DecidableEq, Repr

/-- `_parse_single_review` of `yelp_parser.py`: builds the review dict;
`parse_review_date` raising on a present-but-unparseable review date (or
business-response date) propagates, so the result is `none` in exactly
those cases. -/
def parse_single_review (c : Container) : Option Review :=
  if c.rawDate = RawDate.unparseable then none
  else if c.respDate = some RawDate.unparseable then none
  else
    some
      { rating := extract_reviewer_rating c.starLabel
        date :=
          match c.rawDate with
          | RawDate.missing => DateField.missing
          | RawDate.parseable t => DateField.parsed t
          | RawDate.unparseable => DateField.unparseable
        media_urls := extract_review_media_urls c.media }

/-- `_parse_reviews` of `yelp_parser.py`: per-container `try/except` —
a container whose extraction raises is skipped, all others contribute one
review each, in order. -/
def parse_reviews : List Container → List Review
  | [] => []
  | c :: rest =>
      match parse_single_review c with
      | some r => r :: parse_reviews rest
      | none => parse_reviews rest

/-- One flat output record of `parse_business_page`: the business fields,
the shared histogram, and (via `record.update(review)`, key sets being
disjoint) the review's own fields. -/
structure OutputRecord where
  business_url : String
  business_name : Option String
  average_rating : Option String
  total_reviews : Option String
  price_range : Option String
  business_address : Option String
  contact_number : Option String
  review_counts_by_rating : RatingHistogram
  review : Review
deriving DecidableEq, Repr

/-- `YelpPageParser.parse_business_page` after fetching and tree parsing
(external collaborators): `business` is the result of
`_parse_business_info`, `raw` the result of `_parse_reviews`, `fmt` the
float rendering used for `f"{business.average_rating:.1f}"`.  Truncate to
`max_reviews`, filter, build the histogram of the filtered set, then emit
one flat record per surviving review. -/
def parse_business_page (fmt : Rat → String) (business : BusinessInfo)
    (raw : List Review) (settings : ScraperSettings) : List OutputRecord :=
  let reviews := raw.take settings.max_reviews
  let filters := ReviewFilters.from_settings settings
  let filtered := apply_filters reviews filters
  let hist := build_rating_histogram filtered
  filtered.map fun r =>
    { business_url := business.business_url
      business_name := business.business_name
      average_rating := business.average_rating.map fmt
      total_reviews := business.total_reviews_text
      price_range := business.price_range
      business_address := business.business_address
      contact_number := business.contact_number
      review_counts_by_rating := hist
      review := r }

/-- Bucket of a histogram for star value `k` (the `f"{stars}stars"` keys;
0 for a key outside 1..5, which the dict never holds). -/
def RatingHistogram.bucket (h : RatingHistogram) (k : Int) : Nat :=
  if k = 1 then h.stars1
  else if k = 2 then h.stars2
  else if k = 3 then h.stars3
  else if k = 4 then h.stars4
  else if k = 5 then h.stars5
  else 0

/-- "rating at least 4" over a review dict, as the claimed filter result
reads it: false for an absent or non-integer rating. -/
def ratingGe4 (r : Review) : Bool :=
  match r.rating with
  | some k => decide (4 ≤ k)
  | none => false

/-- Qualifying image sources of the media elements, in document order. -/
def imgUrls (items : List MediaItem) : List String :=
  items.filterMap fun item =>
    match item with
    | MediaItem.img (some src) => if containsYelp src then some src else none
    | _ => none

/-- Video source attributes of the media elements, in document order. -/
def vidUrls (items : List MediaItem) : List String :=
  items.filterMap fun item =>
    match item with
    | MediaItem.vsource (some src) => some src
    | _ => none

/-- Concrete review with a 5-star rating, used by witnesses. -/
def rvA : Review := ⟨some 5, DateField.missing, []⟩

/-- Concrete review with a 3-star rating, used by witnesses. -/
def rvB : Review := ⟨some 3, DateField.missing, []⟩

/-- Concrete business metadata, used by witnesses. -/
def bW : BusinessInfo :=
  ⟨"https://yelp.example/biz", some "Biz", none, some "12 reviews", none,
   none, none⟩

/-- First record of the two-review witness document. -/
def recWA : OutputRecord :=
  ⟨"https://yelp.example/biz", some "Biz", none, some "12 reviews", none,
   none, none, build_rating_histogram [rvA, rvB], rvA⟩

/-- Second record of the two-review witness document. -/
def recWB : OutputRecord :=
  ⟨"https://yelp.example/biz", some "Biz", none, some "12 reviews", none,
   none, none, build_rating_histogram [rvA, rvB], rvB⟩

/-- Settings of the truncation scenario: `max_reviews=200, min_rating=4`. -/
def stC1 : ScraperSettings := ⟨200, some 4, none, none⟩

/-- A 250-review document whose 50 high-rated reviews all sit past the
truncation point: 200 one-star reviews followed by 50 five-star ones. -/
def tailHeavy : List Review :=
  List.replicate 200 (⟨some 1, DateField.missing, []⟩ : Review)
    ++ List.replicate 50 (⟨some 5, DateField.missing, []⟩ : Review)

/-- Container whose review-date text is present but unparseable: its
extraction raises inside `parse_review_date`. -/
def badContainer : Container :=
  ⟨none, RawDate.unparseable, none, []⟩

/-- Container that extracts cleanly. -/
def goodContainer : Container :=
  ⟨some "5 star rating", RawDate.parseable 100, none, []⟩

/-- Container whose star-rating label carries an out-of-range number. -/
def badLabelContainer : Container :=
  ⟨some "10 star rating", RawDate.missing, none, []⟩

/-- Media list with a video source preceding a qualifying image. -/
def exMedia : List MediaItem :=
  [MediaItem.vsource (some "v.mp4"),
   MediaItem.img (some "http://yelpcdn.com/a.jpg")]

example : passes_rating_filter ⟨none, DateField.missing, []⟩
    ⟨some 3, none, none⟩ = false := by decide

example : passes_rating_filter ⟨some 4, DateField.missing, []⟩
    ⟨some 3, some 5, none⟩ = true := by decide

example : (build_rating_histogram
    [⟨some 5, DateField.missing, []⟩, ⟨some 5, DateField.missing, []⟩,
     ⟨some 7, DateField.missing, []⟩, ⟨none, DateField.missing, []⟩]).bucketSum
    = 2 := by decide

example : extract_reviewer_rating (some "10 star rating") = some 10 := by
  decide

example : extract_reviewer_rating (some "4 star rating") = some 4 := by
  decide

example : extract_reviewer_rating (some "star rating") = none := by decide

example : containsYelp "http://s3-media.yelpcdn.com/a.jpg" = true := by
  decide

example : extract_review_media_urls
    [MediaItem.vsource (some "v.mp4"),
     MediaItem.img (some "http://yelpcdn.com/a.jpg"),
     MediaItem.img (some "http://yelpcdn.com/a.jpg"),
     MediaItem.img (some "other.jpg")]
    = ["http://yelpcdn.com/a.jpg", "v.mp4"] := by decide

example : docOrderUrls
    [MediaItem.vsource (some "v.mp4"),
     MediaItem.img (some "http://yelpcdn.com/a.jpg")]
    = ["v.mp4", "http://yelpcdn.com/a.jpg"] := by decide

section HistogramLemmas

lemma sum_counterOf (reviews : List Review) :
    counterOf reviews 1 + counterOf reviews 2 + counterOf reviews 3 +
      counterOf reviews 4 + counterOf reviews 5
    = reviews.countP knownInRange := by
  induction reviews with
  | nil => simp [counterOf]
  | cons r rest ih =>
    simp only [counterOf]
    cases hr : r.rating with
    | none =>
      have hk : knownInRange r = false := by simp [knownInRange, hr]
      simp [List.countP_cons, hk, ih]
    | some j =>
      by_cases hj : (1 ≤ j && j ≤ 5) = true
      · have hk : knownInRange r = true := by simp [knownInRange, hr, hj]
        have hj5 : j = 1 ∨ j = 2 ∨ j = 3 ∨ j = 4 ∨ j = 5 := by
          simp only [Bool.and_eq_true, decide_eq_true_eq] at hj
          omega
        simp only [hj, if_true]
        rcases hj5 with rfl | rfl | rfl | rfl | rfl <;>
          simp [counterAdd, List.countP_cons, hk, ← ih] <;> omega
      · have hk : knownInRange r = false := by
          simp only [knownInRange, hr]
          simpa using hj
        simp [hj, List.countP_cons, hk, ih]

lemma bucketSum_build (reviews : List Review) :
    (build_rating_histogram reviews).bucketSum = reviews.countP knownInRange := by
  simpa [build_rating_histogram, RatingHistogram.bucketSum]
    using sum_counterOf reviews

lemma counterOf_eq_zero (reviews : List Review) (k : Int)
    (h : ∀ r ∈ reviews, r.rating ≠ some k) : counterOf reviews k = 0 := by
  induction reviews with
  | nil => simp [counterOf]
  | cons r rest ih =>
    have hrest : ∀ x ∈ rest, x.rating ≠ some k := fun x hx =>
      h x (List.mem_cons_of_mem r hx)
    simp only [counterOf]
    cases hr : r.rating with
    | none => exact ih hrest
    | some j =>
      have hjk : j ≠ k := by
        intro e
        exact h r (List.mem_cons_self r rest) (by rw [hr, e])
      by_cases hj : (1 ≤ j && j ≤ 5) = true
      · simp only [hj, if_true, counterAdd, if_neg (Ne.symm hjk)]
        exact ih hrest
      · simp only [hj, if_false]
        exact ih hrest

lemma bucket_build (reviews : List Review) (k : Int)
    (h1 : 1 ≤ k) (h5 : k ≤ 5) :
    (build_rating_histogram reviews).bucket k = counterOf reviews k := by
  have hk : k = 1 ∨ k = 2 ∨ k = 3 ∨ k = 4 ∨ k = 5 := by omega
  rcases hk with rfl | rfl | rfl | rfl | rfl <;>
    simp [build_rating_histogram, RatingHistogram.bucket]

end HistogramLemmas

section PipelineLemmas

lemma length_parse_business_page (fmt : Rat → String) (b : BusinessInfo)
    (raw : List Review) (st : ScraperSettings) :
    (parse_business_page fmt b raw st).length
      = (apply_filters (raw.take st.max_reviews)
          (ReviewFilters.from_settings st)).length := by
  simp [parse_business_page]

lemma hist_of_mem (fmt : Rat → String) (b : BusinessInfo)
    (raw : List Review) (st : ScraperSettings) (rec : OutputRecord)
    (h : rec ∈ parse_business_page fmt b raw st) :
    rec.review_counts_by_rating
      = build_rating_histogram (apply_filters (raw.take st.max_reviews)
          (ReviewFilters.from_settings st)) := by
  simp only [parse_business_page, List.mem_map] at h
  obtain ⟨r, -, rfl⟩ := h
  rfl

end PipelineLemmas

/-- C4: the claim — histogram bucket counts sum to the number of ALL
reviews passed in, including unrated / out-of-range ones — is false: a
single review with absent rating yields bucket sum 0, not 1. -/
theorem C4_counterexample :
    (build_rating_histogram [⟨none, DateField.missing, []⟩]).bucketSum
      ≠ ([(⟨none, DateField.missing, []⟩ : Review)] : List Review).length := by
  decide

/-- C3: the histogram of every output record is built from the post-filter
(and post-truncation) review set; for every review list passed to the
builder the five bucket counts sum to the number of reviews whose rating
is a known integer in 1..5 (unknown or out-of-range ratings are counted in
no bucket); and every star value that never occurs has its key present
with count 0. -/
theorem C3_histogram_post_filter :
    (∀ (fmt : Rat → String) (b : BusinessInfo) (raw : List Review)
       (st : ScraperSettings) (rec : OutputRecord),
       rec ∈ parse_business_page fmt b raw st →
       rec.review_counts_by_rating
         = build_rating_histogram (apply_filters (raw.take st.max_reviews)
             (ReviewFilters.from_settings st)))
    ∧ (∀ reviews : List Review,
        (build_rating_histogram reviews).bucketSum
          = reviews.countP knownInRange)
    ∧ (∀ (reviews : List Review) (k : Int), 1 ≤ k → k ≤ 5 →
        (∀ r ∈ reviews, r.rating ≠ some k) →
        (build_rating_histogram reviews).bucket k = 0) := by
  refine ⟨fun fmt b raw st rec h => hist_of_mem fmt b raw st rec h,
          fun reviews => bucketSum_build reviews,
          fun reviews k h1 h5 h => ?_⟩
  rw [bucket_build reviews k h1 h5]
  exact counterOf_eq_zero reviews k h

/-- Witness for C3: a list with one 2-star review has an empty 1-star
bucket. -/
theorem C3_witness :
    (build_rating_histogram [⟨some 2, DateField.missing, []⟩]).bucket 1 = 0 :=
  C3_histogram_post_filter.2.2 [⟨some 2, DateField.missing, []⟩] 1
    (by decide) (by decide) (by decide)

/-- C10 (implicit): all records emitted for one document carry the same
`review_counts_by_rating` value — the histogram of that document's
filtered review set. -/
theorem C10_histogram_shared :
    ∀ (fmt : Rat → String) (b : BusinessInfo) (raw : List Review)
      (st : ScraperSettings) (r1 r2 : OutputRecord),
      r1 ∈ parse_business_page fmt b raw st →
      r2 ∈ parse_business_page fmt b raw st →
      r1.review_counts_by_rating = r2.review_counts_by_rating
      ∧ r1.review_counts_by_rating
          = build_rating_histogram (apply_filters (raw.take st.max_reviews)
              (ReviewFilters.from_settings st)) := by
  intro fmt b raw st r1 r2 h1 h2
  have e1 := hist_of_mem fmt b raw st r1 h1
  have e2 := hist_of_mem fmt b raw st r2 h2
  exact ⟨e1.trans e2.symm, e1⟩

/-- Witness for C10: both records of a two-review document share one
histogram. -/
theorem C10_witness :
    recWA.review_counts_by_rating = recWB.review_counts_by_rating
    ∧ recWA.review_counts_by_rating
        = build_rating_histogram (apply_filters
            (([rvA, rvB] : List Review).take
              (ScraperSettings.max_reviews {}))
            (ReviewFilters.from_settings {})) :=
  C10_histogram_shared (fun _ => "") bW [rvA, rvB] {} recWA recWB
    (by decide) (by decide)

/-- C2: one output record per filtered review (the empty list when none
survive), and every record's business-level fields equal the fields of the
single `BusinessInfo` of the document (`average_rating` through the float
rendering `fmt` the code applies). -/
theorem C2_records :
    ∀ (fmt : Rat → String) (b : BusinessInfo) (raw : List Review)
      (st : ScraperSettings),
      (parse_business_page fmt b raw st).length
        = (apply_filters (raw.take st.max_reviews)
            (ReviewFilters.from_settings st)).length
      ∧ ∀ rec ∈ parse_business_page fmt b raw st,
          rec.business_url = b.business_url
          ∧ rec.business_name = b.business_name
          ∧ rec.average_rating = b.average_rating.map fmt
          ∧ rec.total_reviews = b.total_reviews_text
          ∧ rec.price_range = b.price_range
          ∧ rec.business_address = b.business_address
          ∧ rec.contact_number = b.contact_number := by
  intro fmt b raw st
  refine ⟨length_parse_business_page fmt b raw st, ?_⟩
  intro rec h
  simp only [parse_business_page, List.mem_map] at h
  obtain ⟨r, -, rfl⟩ := h
  exact ⟨rfl, rfl, rfl, rfl, rfl, rfl, rfl⟩

/-- Witness for C2: a record of the two-review witness document carries
the document's business URL. -/
theorem C2_witness : recWA.business_url = bW.business_url :=
  ((C2_records (fun _ => "") bW [rvA, rvB] {}).2 recWA (by decide)).1

/-- C4 (amended): for every review list passed into the histogram builder,
the bucket counts plus the number of reviews with unknown or out-of-range
rating sum to the number of reviews in the list — i.e. the buckets count
exactly the reviews with a known integer rating in 1..5. -/
theorem C4_bucket_sum_amended (reviews : List Review) :
    (build_rating_histogram reviews).bucketSum
      + reviews.countP (fun r => !(knownInRange r)) = reviews.length := by
  rw [bucketSum_build]
  have h := List.length_eq_countP_add_countP knownInRange (l := reviews)
  have hc : reviews.countP (fun r => !(knownInRange r))
      = reviews.countP fun a => decide ¬(knownInRange a = true) := by
    apply List.countP_congr
    intro a _
    cases knownInRange a <;> simp
  omega

set_option maxRecDepth 4000 in
/-- C1: for every document and settings, the raw extracted reviews are
truncated to the first `max_reviews` before the filters run; hence with
250 extracted reviews under `max_reviews=200, min_rating=4` the output
length is the count of rating-at-least-4 reviews among the first 200 —
and on a document whose high ratings sit past position 200 this differs
from `min(200, count among all 250)` (0 versus 50). -/
theorem C1_truncate_before_filter :
    (∀ (fmt : Rat → String) (b : BusinessInfo) (raw : List Review)
       (st : ScraperSettings),
       (parse_business_page fmt b raw st).length
         = (apply_filters (raw.take st.max_reviews)
             (ReviewFilters.from_settings st)).length)
    ∧ (∀ (fmt : Rat → String) (b : BusinessInfo) (raw : List Review),
        raw.length = 250 →
        (parse_business_page fmt b raw stC1).length
          = (raw.take 200).countP ratingGe4)
    ∧ (parse_business_page (fun _ => "") bW tailHeavy stC1).length = 0
    ∧ min 200 (tailHeavy.countP ratingGe4) = 50 := by
  refine ⟨fun fmt b raw st => length_parse_business_page fmt b raw st,
          ?_, ?_, ?_⟩
  · intro fmt b raw _
    rw [length_parse_business_page, List.countP_eq_length_filter]
    unfold apply_filters
    have hst : stC1.max_reviews = 200 := rfl
    rw [hst]
    congr 1
    apply List.filter_congr
    intro r _
    cases hr : r.rating <;>
      simp [passes_rating_filter, passes_date_filter, ratingGe4, hr,
        ReviewFilters.from_settings, stC1]
  · decide
  · decide

set_option maxRecDepth 4000 in
/-- Witness for C1: a concrete 250-review document realises the equality
of the truncation scenario. -/
theorem C1_witness :
    (parse_business_page (fun _ => "") bW tailHeavy stC1).length
      = (tailHeavy.take 200).countP ratingGe4 :=
  C1_truncate_before_filter.2.1 (fun _ => "") bW tailHeavy (by decide)

/-- C5: the rating rule keeps a review with a known integer rating iff the
rating lies within `[min_rating, max_rating]` (an unset bound is
unconstrained) and keeps a review with an unknown or non-integer rating
iff neither bound is set; a review with absent rating under
`{min_rating: 3}` is dropped. -/
theorem C5_rating_rule :
    (∀ (r : Review) (f : ReviewFilters),
       (∀ k, r.rating = some k →
          (passes_rating_filter r f = true ↔
            ((∀ m, f.min_rating = some m → m ≤ k)
             ∧ (∀ m, f.max_rating = some m → k ≤ m))))
       ∧ (r.rating = none →
          (passes_rating_filter r f = true ↔
            (f.min_rating = none ∧ f.max_rating = none))))
    ∧ passes_rating_filter ⟨none, DateField.missing, []⟩
        ⟨some 3, none, none⟩ = false := by
  constructor
  · intro r f
    constructor
    · intro k hk
      cases hm : f.min_rating <;> cases hM : f.max_rating <;>
        simp [passes_rating_filter, hk, hm, hM]
    · intro hk
      simp [passes_rating_filter, hk, Option.isNone_iff_eq_none]
  · decide

/-- Witness for C5: a 4-star review passes the bounds `[3, 5]`. -/
theorem C5_witness :
    passes_rating_filter ⟨some 4, DateField.missing, []⟩
      ⟨some 3, some 5, none⟩ = true :=
  ((C5_rating_rule.1 ⟨some 4, DateField.missing, []⟩
      ⟨some 3, some 5, none⟩).1 4 rfl).mpr
    ⟨fun m hm => by injection hm with h; omega,
     fun m hm => by injection hm with h; omega⟩

/-- C6: the date rule passes everything when `from_date` is unset; when it
is set, a review lacking a date is dropped, a review whose date fails to
parse is dropped, and otherwise the review is kept iff its normalized
date is on or after `from_date`. -/
theorem C6_date_rule :
    ∀ (r : Review) (f : ReviewFilters),
      (f.from_date = none → passes_date_filter r f = true)
      ∧ (∀ fd, f.from_date = some fd →
          (r.date = DateField.missing → passes_date_filter r f = false)
          ∧ (r.date = DateField.unparseable →
              passes_date_filter r f = false)
          ∧ (∀ t, r.date = DateField.parsed t →
              (passes_date_filter r f = true ↔ fd ≤ t))) := by
  intro r f
  refine ⟨fun h => by simp [passes_date_filter, h], ?_⟩
  intro fd hfd
  exact ⟨fun h => by simp [passes_date_filter, hfd, h],
         fun h => by simp [passes_date_filter, hfd, h],
         fun t h => by simp [passes_date_filter, hfd, h]⟩

/-- Witness for C6: a review dated 7 passes a `from_date` of 5. -/
theorem C6_witness :
    passes_date_filter ⟨none, DateField.parsed 7, []⟩
      ⟨none, none, some 5⟩ = true :=
  (((C6_date_rule ⟨none, DateField.parsed 7, []⟩
      ⟨none, none, some 5⟩).2 5 rfl).2.2 7 rfl).mpr (by decide)

/-- C7: extraction over a container sequence is per-container fail-safe —
each container contributes its record exactly when its extraction
succeeds, in order, and a container whose extraction raises (for example
on a present-but-unparseable date) is skipped while all sibling
containers are processed unaffected. -/
theorem C7_skip_failing_container :
    (∀ cs : List Container,
       parse_reviews cs = cs.filterMap parse_single_review)
    ∧ (∀ (xs ys : List Container) (c : Container),
        parse_single_review c = none →
        parse_reviews (xs ++ c :: ys)
          = parse_reviews xs ++ parse_reviews ys) := by
  constructor
  · intro cs
    induction cs with
    | nil => rfl
    | cons c rest ih =>
      simp only [parse_reviews, List.filterMap_cons]
      cases parse_single_review c <;> simp [ih]
  · intro xs ys c hc
    induction xs with
    | nil => simp [parse_reviews, hc]
    | cons x rest ih =>
      simp only [List.cons_append, parse_reviews]
      cases parse_single_review x <;> simp [ih]

/-- Witness for C7: a container with an unparseable date between two good
containers is the only one skipped. -/
theorem C7_witness :
    parse_reviews [goodContainer, badContainer, goodContainer]
      = parse_reviews [goodContainer] ++ parse_reviews [goodContainer] :=
  C7_skip_failing_container.2 [goodContainer] [goodContainer] badContainer
    (by decide)

/-- C8: the claim — the extracted reviewer rating is absent or in 1..5 —
is false: `_extract_reviewer_rating` performs no range check, so a
container whose star-rating label reads "10 star rating" yields the
rating 10. -/
theorem C8_counterexample :
    (parse_single_review badLabelContainer).map Review.rating
      = some (some 10)
    ∧ ¬(1 ≤ (10 : Int) ∧ (10 : Int) ≤ 5) := by
  decide

/-- C8 (amended): the extracted reviewer rating is either absent or a
nonnegative integer (the first number appearing in the star-rating
label); extraction itself performs no 1..5 range check, so the value lies
in 1..5 only when the label's first number does. -/
theorem C8_rating_amended :
    ∀ (c : Container) (r : Review), parse_single_review c = some r →
      r.rating = none ∨ ∃ n : Nat, r.rating = some (Int.ofNat n) := by
  intro c r h
  have hr : r.rating = extract_reviewer_rating c.starLabel := by
    simp only [parse_single_review] at h
    split at h
    · exact absurd h (by simp)
    · split at h
      · exact absurd h (by simp)
      · obtain rfl := Option.some.inj h
        rfl
  rw [hr]
  cases hl : c.starLabel with
  | none => exact Or.inl rfl
  | some s =>
    cases hn : findFirstNat s.data with
    | none => exact Or.inl (by simp [extract_reviewer_rating, hn])
    | some n => exact Or.inr ⟨n, by simp [extract_reviewer_rating, hn]⟩

/-- Witness for C8 (amended): a "4 star rating" label yields the
nonnegative rating 4. -/
theorem C8_witness :
    (⟨some 4, DateField.missing, []⟩ : Review).rating = none
    ∨ ∃ n : Nat,
        (⟨some 4, DateField.missing, []⟩ : Review).rating
          = some (Int.ofNat n) :=
  C8_rating_amended ⟨some "4 star rating", RawDate.missing, none, []⟩
    ⟨some 4, DateField.missing, []⟩ (by decide)

section MediaLemmas

lemma foldl_addImg (items : List MediaItem) :
    ∀ acc : List String,
      items.foldl addImg acc = dedupInto acc (imgUrls items) := by
  induction items with
  | nil => intro acc; rfl
  | cons i rest ih =>
    intro acc
    cases i with
    | img os =>
      cases os with
      | none => simpa [imgUrls, addImg] using ih acc
      | some s =>
        simp only [List.foldl_cons, imgUrls, List.filterMap_cons]
        by_cases hy : containsYelp s = true
        · by_cases hc : s ∈ acc
          · rw [show addImg acc (MediaItem.img (some s)) = acc by
              simp [addImg, hy, hc]]
            simpa [hy, hc, dedupInto, imgUrls] using ih acc
          · rw [show addImg acc (MediaItem.img (some s)) = acc ++ [s] by
              simp [addImg, hy, hc]]
            simpa [hy, hc, dedupInto, imgUrls] using ih (acc ++ [s])
        · rw [show addImg acc (MediaItem.img (some s)) = acc by
            simp [addImg, hy]]
          simpa [hy, imgUrls] using ih acc
    | vsource os => simpa [imgUrls, addImg] using ih acc

lemma foldl_addSrc (items : List MediaItem) :
    ∀ acc : List String,
      items.foldl addSrc acc = dedupInto acc (vidUrls items) := by
  induction items with
  | nil => intro acc; rfl
  | cons i rest ih =>
    intro acc
    cases i with
    | img os => simpa [vidUrls, addSrc] using ih acc
    | vsource os =>
      cases os with
      | none => simpa [vidUrls, addSrc] using ih acc
      | some s =>
        simp only [List.foldl_cons, vidUrls, List.filterMap_cons]
        by_cases hc : s ∈ acc
        · rw [show addSrc acc (MediaItem.vsource (some s)) = acc by
            simp [addSrc, hc]]
          simpa [hc, dedupInto, vidUrls] using ih acc
        · rw [show addSrc acc (MediaItem.vsource (some s)) = acc ++ [s] by
            simp [addSrc, hc]]
          simpa [hc, dedupInto, vidUrls] using ih (acc ++ [s])

lemma dedupInto_append (xs : List String) :
    ∀ (acc ys : List String),
      dedupInto acc (xs ++ ys) = dedupInto (dedupInto acc xs) ys := by
  induction xs with
  | nil => intro acc ys; rfl
  | cons s rest ih =>
    intro acc ys
    simp only [List.cons_append, dedupInto]
    by_cases hc : s ∈ acc
    · simp [hc, ih]
    · simp [hc, ih]

lemma dedupInto_nodup (l : List String) :
    ∀ acc : List String, acc.Nodup → (dedupInto acc l).Nodup := by
  induction l with
  | nil => intro acc h; exact h
  | cons s rest ih =>
    intro acc h
    simp only [dedupInto]
    by_cases hc : s ∈ acc
    · have hb : acc.contains s = true := by simpa using hc
      simp only [hb, if_true]
      exact ih acc h
    · have hb : acc.contains s = false := by simpa using hc
      simp only [hb, if_false]
      apply ih
      simp [List.nodup_append, h, hc]

end MediaLemmas

/-- C9: the claim — the extracted media URLs appear, deduplicated, in the
container's document order — is false: the code emits all qualifying
image sources before any video source, so with a video source preceding a
qualifying image in the document the output is not in document order. -/
theorem C9_counterexample :
    extract_review_media_urls exMedia
      ≠ dedupInto [] (docOrderUrls exMedia) := by
  decide

/-- C9 (amended): the extracted media-URL list contains no duplicates and
equals the first-occurrence deduplication of the qualifying image sources
in document order followed by all video source attributes in document
order — order is per kind, images always before video sources. -/
theorem C9_media_amended :
    ∀ items : List MediaItem,
      (extract_review_media_urls items).Nodup
      ∧ extract_review_media_urls items
          = dedupInto [] (imgUrls items ++ vidUrls items) := by
  intro items
  have he : extract_review_media_urls items
      = dedupInto [] (imgUrls items ++ vidUrls items) := by
    rw [extract_review_media_urls, foldl_addImg items [],
      foldl_addSrc items (dedupInto [] (imgUrls items)),
      dedupInto_append]
  exact ⟨he ▸ dedupInto_nodup _ [] List.nodup_nil, he⟩
